import Mathlib

/-!
Verification development for the elixir-forge inference broker.

The repository has two Python source files:

* src/python/inference_service.py — a Zenoh-based dispatch loop (main) that
  consumes matched queries, decodes a FlatBuffers request, calls a backend,
  builds a FlatBuffers response and replies; plus a placeholder backend
  process_inference.
* src/zimage/inference_service.py — a Z-Image-Turbo generation entry point
  whose process_inference wraps the whole generation body in a try/except
  that returns "/tmp/error.png" on any caught exception, and resolves the
  seed parameter (0 means fresh random seed).

The Wire Codec itself (the FlatBuffers generated classes inference_request
and inference_response, produced by flatc) is not part of the repository
source; only its callers are.  Where a claim is decided by that missing
codec we model it from the specification (see the doc comments starting
with "Modelled from the spec:").  Everything else is embedded directly from
the Python source: stateful loops become step functions over explicit
outcomes, raising Python code becomes Except values, byte buffers become
lists of naturals below 256.
-/

/-! ## Bytes and UTF-8

Byte buffers are lists of naturals (each element is one byte, below 256).
String fields travel on the wire as UTF-8, so we embed the standard UTF-8
character codec over such lists. -/

/-- UTF-8 encoding of a single unicode scalar value, as the list of its
code-unit bytes (1 to 4 bytes depending on the codepoint range). -/
def utf8EncodeChar (c : Char) : List Nat :=
  let v := c.toNat
  if v < 0x80 then [v]
  else if v < 0x800 then [0xC0 + v / 64, 0x80 + v % 64]
  else if v < 0x10000 then
    [0xE0 + v / 4096, 0x80 + v / 64 % 64, 0x80 + v % 64]
  else
    [0xF0 + v / 262144, 0x80 + v / 4096 % 64, 0x80 + v / 64 % 64, 0x80 + v % 64]

/-- UTF-8 encoding of a character sequence. -/
def utf8Encode (cs : List Char) : List Nat :=
  cs.flatMap utf8EncodeChar

/-- Whether a byte is a UTF-8 continuation byte (10xxxxxx). -/
def isCont (b : Nat) : Prop :=
  0x80 ≤ b ∧ b < 0xC0

instance (b : Nat) : Decidable (isCont b) := by
  unfold isCont; infer_instance

/-- Scalar value carried by a continuation byte. -/
def contVal (b : Nat) : Nat := b - 0x80

/-- Decode one UTF-8 character from the front of a buffer, returning the
character and the unconsumed remainder, or none on any malformed sequence
(bad lead byte, missing or invalid continuation byte, overlong form,
surrogate, out-of-range scalar). -/
def utf8DecodeOne (l : List Nat) : Option (Char × List Nat) :=
  match l with
  | [] => none
  | b :: rest =>
    if b < 0x80 then some (Char.ofNat b, rest)
    else if b < 0xC2 then none
    else if b < 0xE0 then
      match rest with
      | b1 :: rest1 =>
        if isCont b1 then some (Char.ofNat ((b - 0xC0) * 64 + contVal b1), rest1)
        else none
      | [] => none
    else if b < 0xF0 then
      match rest with
      | b1 :: b2 :: rest2 =>
        if isCont b1 ∧ isCont b2 then
          if 0x800 ≤ (b - 0xE0) * 4096 + contVal b1 * 64 + contVal b2 ∧
              ¬ (0xD800 ≤ (b - 0xE0) * 4096 + contVal b1 * 64 + contVal b2 ∧
                 (b - 0xE0) * 4096 + contVal b1 * 64 + contVal b2 < 0xE000) then
            some (Char.ofNat ((b - 0xE0) * 4096 + contVal b1 * 64 + contVal b2), rest2)
          else none
        else none
      | _ => none
    else if b < 0xF5 then
      match rest with
      | b1 :: b2 :: b3 :: rest3 =>
        if isCont b1 ∧ isCont b2 ∧ isCont b3 then
          if 0x10000 ≤ (b - 0xF0) * 262144 + contVal b1 * 4096 + contVal b2 * 64 + contVal b3 ∧
              (b - 0xF0) * 262144 + contVal b1 * 4096 + contVal b2 * 64 + contVal b3 < 0x110000 then
            some (Char.ofNat ((b - 0xF0) * 262144 + contVal b1 * 4096 +
              contVal b2 * 64 + contVal b3), rest3)
          else none
        else none
      | _ => none
    else none

/-- Decoding one character consumes at least one byte. -/
theorem utf8DecodeOne_length {l : List Nat} {c : Char} {rest : List Nat}
    (h : utf8DecodeOne l = some (c, rest)) : rest.length < l.length := by
  unfold utf8DecodeOne at h
  repeat' split at h
  all_goals simp_all
  all_goals omega

/-- UTF-8 decoder for whole buffers: the character sequence, or none on any
malformed sequence. -/
def utf8Decode : (l : List Nat) → Option (List Char)
  | [] => some []
  | b :: rest =>
    match h : utf8DecodeOne (b :: rest) with
    | none => none
    | some (c, rest1) =>
      have : rest1.length < (b :: rest).length := utf8DecodeOne_length h
      (utf8Decode rest1).map (fun cs => c :: cs)
termination_by l => l.length

/-- Unicode scalar value ranges of a character, restated over Nat. -/
theorem char_toNat_valid (c : Char) :
    c.toNat < 0xD800 ∨ (0xDFFF < c.toNat ∧ c.toNat < 0x110000) := by
  rcases c.valid with h | ⟨h1, h2⟩
  · exact Or.inl (UInt32.toNat_lt_of_lt (by decide) h)
  · exact Or.inr ⟨UInt32.lt_toNat_of_lt (by decide) h1, UInt32.toNat_lt_of_lt (by decide) h2⟩

/-- Decoding one character from the UTF-8 bytes of a character followed by
any tail yields exactly that character and the tail. -/
theorem utf8DecodeOne_encodeChar (c : Char) (t : List Nat) :
    utf8DecodeOne (utf8EncodeChar c ++ t) = some (c, t) := by
  have hvalid := char_toNat_valid c
  by_cases h80 : c.toNat < 0x80
  · have henc : utf8EncodeChar c = [c.toNat] := by
      unfold utf8EncodeChar; rw [if_pos h80]
    rw [henc]
    simp only [List.cons_append, List.nil_append, utf8DecodeOne, if_pos h80, Char.ofNat_toNat]
  · by_cases h800 : c.toNat < 0x800
    · have henc : utf8EncodeChar c = [0xC0 + c.toNat / 64, 0x80 + c.toNat % 64] := by
        unfold utf8EncodeChar; rw [if_neg h80, if_pos h800]
      rw [henc]
      simp only [List.cons_append, List.nil_append, utf8DecodeOne]
      have hA : ¬ (0xC0 + c.toNat / 64 < 0x80) := by omega
      have hB : ¬ (0xC0 + c.toNat / 64 < 0xC2) := by omega
      have hC : 0xC0 + c.toNat / 64 < 0xE0 := by omega
      have hD : isCont (0x80 + c.toNat % 64) := by unfold isCont; omega
      rw [if_neg hA, if_neg hB, if_pos hC, if_pos hD]
      have harith : (0xC0 + c.toNat / 64 - 0xC0) * 64 + contVal (0x80 + c.toNat % 64)
          = c.toNat := by
        simp only [contVal]; omega
      rw [harith, Char.ofNat_toNat]
    · by_cases h10000 : c.toNat < 0x10000
      · have henc : utf8EncodeChar c =
            [0xE0 + c.toNat / 4096, 0x80 + c.toNat / 64 % 64, 0x80 + c.toNat % 64] := by
          unfold utf8EncodeChar; rw [if_neg h80, if_neg h800, if_pos h10000]
        rw [henc]
        simp only [List.cons_append, List.nil_append, utf8DecodeOne]
        have hA : ¬ (0xE0 + c.toNat / 4096 < 0x80) := by omega
        have hB : ¬ (0xE0 + c.toNat / 4096 < 0xC2) := by omega
        have hC : ¬ (0xE0 + c.toNat / 4096 < 0xE0) := by omega
        have hD : 0xE0 + c.toNat / 4096 < 0xF0 := by omega
        have hE : isCont (0x80 + c.toNat / 64 % 64) ∧ isCont (0x80 + c.toNat % 64) := by
          unfold isCont; omega
        rw [if_neg hA, if_neg hB, if_neg hC, if_pos hD, if_pos hE]
        have harith : (0xE0 + c.toNat / 4096 - 0xE0) * 4096 +
            contVal (0x80 + c.toNat / 64 % 64) * 64 + contVal (0x80 + c.toNat % 64)
            = c.toNat := by
          simp only [contVal]; omega
        have hF : 0x800 ≤ (0xE0 + c.toNat / 4096 - 0xE0) * 4096 +
            contVal (0x80 + c.toNat / 64 % 64) * 64 + contVal (0x80 + c.toNat % 64) ∧
            ¬ (0xD800 ≤ (0xE0 + c.toNat / 4096 - 0xE0) * 4096 +
                contVal (0x80 + c.toNat / 64 % 64) * 64 + contVal (0x80 + c.toNat % 64) ∧
               (0xE0 + c.toNat / 4096 - 0xE0) * 4096 +
                contVal (0x80 + c.toNat / 64 % 64) * 64 + contVal (0x80 + c.toNat % 64)
                < 0xE000) := by
          rw [harith]; omega
        rw [if_pos hF, harith, Char.ofNat_toNat]
      · have henc : utf8EncodeChar c =
            [0xF0 + c.toNat / 262144, 0x80 + c.toNat / 4096 % 64,
             0x80 + c.toNat / 64 % 64, 0x80 + c.toNat % 64] := by
          unfold utf8EncodeChar; rw [if_neg h80, if_neg h800, if_neg h10000]
        rw [henc]
        simp only [List.cons_append, List.nil_append, utf8DecodeOne]
        have hup : c.toNat < 0x110000 := by omega
        have hA : ¬ (0xF0 + c.toNat / 262144 < 0x80) := by omega
        have hB : ¬ (0xF0 + c.toNat / 262144 < 0xC2) := by omega
        have hC : ¬ (0xF0 + c.toNat / 262144 < 0xE0) := by omega
        have hD : ¬ (0xF0 + c.toNat / 262144 < 0xF0) := by omega
        have hE : 0xF0 + c.toNat / 262144 < 0xF5 := by omega
        have hF : isCont (0x80 + c.toNat / 4096 % 64) ∧
            isCont (0x80 + c.toNat / 64 % 64) ∧ isCont (0x80 + c.toNat % 64) := by
          unfold isCont; omega
        rw [if_neg hA, if_neg hB, if_neg hC, if_neg hD, if_pos hE, if_pos hF]
        have harith : (0xF0 + c.toNat / 262144 - 0xF0) * 262144 +
            contVal (0x80 + c.toNat / 4096 % 64) * 4096 +
            contVal (0x80 + c.toNat / 64 % 64) * 64 + contVal (0x80 + c.toNat % 64)
            = c.toNat := by
          simp only [contVal]; omega
        have hG : 0x10000 ≤ (0xF0 + c.toNat / 262144 - 0xF0) * 262144 +
            contVal (0x80 + c.toNat / 4096 % 64) * 4096 +
            contVal (0x80 + c.toNat / 64 % 64) * 64 + contVal (0x80 + c.toNat % 64) ∧
            (0xF0 + c.toNat / 262144 - 0xF0) * 262144 +
            contVal (0x80 + c.toNat / 4096 % 64) * 4096 +
            contVal (0x80 + c.toNat / 64 % 64) * 64 + contVal (0x80 + c.toNat % 64)
            < 0x110000 := by
          rw [harith]; omega
        rw [if_pos hG, harith, Char.ofNat_toNat]

/-- The UTF-8 encoding of a character is never the empty buffer. -/
theorem utf8EncodeChar_ne_nil (c : Char) : utf8EncodeChar c ≠ [] := by
  simp only [utf8EncodeChar]
  split_ifs <;> simp

/-- Decoding the UTF-8 bytes of one character followed by any tail peels off
exactly that character. -/
theorem utf8Decode_encodeChar_append (c : Char) (t : List Nat) :
    utf8Decode (utf8EncodeChar c ++ t) = (utf8Decode t).map (fun cs => c :: cs) := by
  obtain ⟨b, bs, hbs⟩ : ∃ b bs, utf8EncodeChar c ++ t = b :: bs := by
    cases henc : utf8EncodeChar c with
    | nil => exact absurd henc (utf8EncodeChar_ne_nil c)
    | cons x xs => exact ⟨x, xs ++ t, by simp⟩
  have hone : utf8DecodeOne (b :: bs) = some (c, t) := by
    rw [← hbs]; exact utf8DecodeOne_encodeChar c t
  rw [hbs, utf8Decode]
  split
  · simp_all
  · rename_i c1 rest1 h1
    rw [h1] at hone
    injection hone with hone
    injection hone with hc hrest
    subst hc; subst hrest
    rfl

/-- Round trip of the UTF-8 codec on whole character sequences. -/
theorem utf8Decode_encode (cs : List Char) : utf8Decode (utf8Encode cs) = some cs := by
  induction cs with
  | nil =>
    rw [show utf8Encode ([] : List Char) = ([] : List Nat) from rfl]
    rw [utf8Decode]
  | cons c cs ih =>
    unfold utf8Encode
    simp only [List.flatMap_cons]
    rw [show cs.flatMap utf8EncodeChar = utf8Encode cs from rfl,
      utf8Decode_encodeChar_append, ih]
    rfl

/-! ## Length-prefixed framing

The spec-modelled wire layout frames each field as a 32-bit little-endian
byte length followed by the field bytes. -/

/-- Little-endian 32-bit length prefix. -/
def le32 (n : Nat) : List Nat :=
  [n % 256, n / 256 % 256, n / 65536 % 256, n / 16777216 % 256]

/-- Read a 32-bit little-endian integer from the front of a buffer. -/
def readLe32 : List Nat → Option (Nat × List Nat)
  | b0 :: b1 :: b2 :: b3 :: rest => some (b0 + 256 * b1 + 65536 * b2 + 16777216 * b3, rest)
  | _ => none

/-- Read one length-prefixed block: the block bytes and the remainder, or
none if the buffer is truncated. -/
def readBlock (l : List Nat) : Option (List Nat × List Nat) :=
  (readLe32 l).bind (fun p =>
    if p.1 ≤ p.2.length then some (p.2.take p.1, p.2.drop p.1) else none)

theorem readLe32_le32 (n : Nat) (rest : List Nat) (h : n < 4294967296) :
    readLe32 (le32 n ++ rest) = some (n, rest) := by
  simp only [le32, List.cons_append, List.nil_append, readLe32]
  have : n % 256 + 256 * (n / 256 % 256) + 65536 * (n / 65536 % 256)
      + 16777216 * (n / 16777216 % 256) = n := by omega
  rw [this]

theorem readBlock_frame (bs rest : List Nat) (h : bs.length < 4294967296) :
    readBlock (le32 bs.length ++ (bs ++ rest)) = some (bs, rest) := by
  unfold readBlock
  rw [readLe32_le32 bs.length (bs ++ rest) h]
  simp only [Option.some_bind]
  rw [if_pos (by simp)]
  rw [List.take_left, List.drop_left]

theorem readBlock_frame_nil (bs : List Nat) (h : bs.length < 4294967296) :
    readBlock (le32 bs.length ++ bs) = some (bs, []) := by
  have := readBlock_frame bs [] h
  rwa [List.append_nil] at this

/-! ## Wire Codec data model -/

/-- Decode failure taxonomy of the Wire Codec (spec section 7). -/
inductive DecodeError where
  | malformedBuffer
  | missingField
  | encodingError
deriving DecidableEq, Repr

/-- Inbound inference request (spec section 3). -/
structure Request where
  model : String
  prompt : String
  image_data : List Nat
deriving DecidableEq, Repr

/-- Outbound inference response (spec section 3). -/
structure Response where
  result_data : List Nat
  metadata : String
deriving DecidableEq, Repr

theorem string_mk_data (s : String) : String.mk s.data = s := by
  cases s; rfl

/-- Modelled from the spec: decode_request of the Wire Codec.  The
FlatBuffers generated class inference_request (flatc output) is not in the
repository source, so the decoder is modelled from spec section 4.1: the
buffer must be non-empty and conform to the layout (MalformedBuffer on
truncated or invalid input), model and prompt must be present
(MissingField) and UTF-8 (EncodingError); image_data is optional. -/
def decode_request (buf : List Nat) : Except DecodeError Request :=
  if buf = [] then .error .malformedBuffer
  else
    match readBlock buf with
    | none => .error .malformedBuffer
    | some (modelBytes, r1) =>
      match utf8Decode modelBytes with
      | none => .error .encodingError
      | some modelChars =>
        if modelChars = [] then .error .missingField
        else
          match readBlock r1 with
          | none => .error .malformedBuffer
          | some (promptBytes, r2) =>
            match utf8Decode promptBytes with
            | none => .error .encodingError
            | some promptChars =>
              if promptChars = [] then .error .missingField
              else
                if r2 = [] then .ok ⟨⟨modelChars⟩, ⟨promptChars⟩, []⟩
                else
                  match readBlock r2 with
                  | none => .error .malformedBuffer
                  | some (imageBytes, r3) =>
                    if r3 = [] then .ok ⟨⟨modelChars⟩, ⟨promptChars⟩, imageBytes⟩
                    else .error .malformedBuffer

/-- Modelled from the spec: encode_request, the encoding counterpart used
by callers to build request buffers (spec section 4.1 layout). -/
def encode_request (r : Request) : List Nat :=
  let mb := utf8Encode r.model.data
  let pb := utf8Encode r.prompt.data
  le32 mb.length ++ mb ++ (le32 pb.length ++ pb ++ (le32 r.image_data.length ++ r.image_data))

/-- Modelled from the spec: encode_response of the Wire Codec.  The
FlatBuffers generated class inference_response (flatc output) is not in the
repository source, so the single-pass encoder is modelled from spec
section 4.1: result_data bytes then metadata as UTF-8. -/
def encode_response (r : Response) : List Nat :=
  let mb := utf8Encode r.metadata.data
  le32 r.result_data.length ++ r.result_data ++ (le32 mb.length ++ mb)

/-- Modelled from the spec: the Response-decoding counterpart of
encode_response (spec sections 4.1 and 8, round-trip law). -/
def decode_response (buf : List Nat) : Except DecodeError Response :=
  if buf = [] then .error .malformedBuffer
  else
    match readBlock buf with
    | none => .error .malformedBuffer
    | some (rd, r1) =>
      match readBlock r1 with
      | none => .error .malformedBuffer
      | some (mb, r2) =>
        match utf8Decode mb with
        | none => .error .encodingError
        | some metaChars =>
          if r2 = [] then .ok ⟨rd, ⟨metaChars⟩⟩ else .error .malformedBuffer

/-! ## src/python/inference_service.py — dispatch loop

Embedding of main (lines 14-55).  Python exceptions become an explicit
error channel: the generated FlatBuffers accessors and the backend are
oracles that either return a value or raise.  The loop body has no
try/except, so a raise in either oracle propagates out of the loop. -/

/-- Python-level exceptions that can cross the oracle boundaries of the
dispatch loop. -/
inductive PyExc where
  | decodeFailure (e : DecodeError)
  | inferenceError (reason : String)
  | nameError (name : String)
deriving DecidableEq, Repr

namespace Python

/-- Placeholder backend of src/python (process_inference, lines 57-64): it
sleeps and returns the constant buffer b"simulated_result_image_data". -/
def process_inference (image_data : List Nat) (prompt model : String) : List Nat :=
  "simulated_result_image_data".data.map Char.toNat

/-- Metadata string built by the reply path of main (line 45):
a JSON-looking blob with a space after each colon. -/
def successMetadata (model : String) : String :=
  "\x7b\"model\": \"" ++ model ++ "\", \"status\": \"success\"\x7d"

/-- Outcome of one iteration of the dispatch loop for one consumed query. -/
inductive DispatchOutcome where
  | skipped
  | replied (resp : Response)
  | crashed (e : PyExc)
deriving DecidableEq, Repr

/-- One iteration of the async-for dispatch loop of main (lines 24-55),
with the reply-serialization block idealized: an empty payload is skipped
via continue before any decoding; otherwise the request is decoded (an
exception propagates: there is no try/except), the backend is invoked
(same), and after backend success this model assumes the serialization and
reply block (lines 41-55) succeeds and sends the one reply whose Response
carries the backend result and the success metadata.  The idealization
only widens the success branch: in the source that block raises NameError
(see dispatchStepExact below), so the skip, decode-raise and backend-raise
branches are exactly those of the source. -/
def dispatchStep (decodeFb : List Nat → Except PyExc Request)
    (backend : Request → Except PyExc (List Nat))
    (payload : List Nat) : DispatchOutcome :=
  if payload = [] then .skipped
  else
    match decodeFb payload with
    | .error e => .crashed e
    | .ok req =>
      match backend req with
      | .error e => .crashed e
      | .ok result => .replied ⟨result, successMetadata req.model⟩

/-- Number of replies the dispatcher sends for one consumed query. -/
def repliesSent : DispatchOutcome → Nat
  | .replied _ => 1
  | _ => 0

/-- One iteration of the dispatch loop of main (lines 24-55) with the
reply-serialization block taken as written: after backend success, line 42
executes `builder = flatbuffers.Builder(1024)`, but line 7 imports only
the name FlatBuffers from the flatbuffers module, so the name flatbuffers
is unbound and line 42 raises NameError deterministically (line 43 would
likewise hit the unbound name Inferencer) before query.reply at line 55 is
ever reached.  So the success branch also crashes, and no branch of the
loop sends a reply. -/
def dispatchStepExact (decodeFb : List Nat → Except PyExc Request)
    (backend : Request → Except PyExc (List Nat))
    (payload : List Nat) : DispatchOutcome :=
  if payload = [] then .skipped
  else
    match decodeFb payload with
    | .error e => .crashed e
    | .ok req =>
      match backend req with
      | .error e => .crashed e
      | .ok _result => .crashed (PyExc.nameError "flatbuffers")

/-- Startup actions of main, in program order (lines 14-22): open the Zenoh
session, declare the liveliness token "forge/services/qwen3vl", declare the
queryable "forge/inference/qwen". -/
inductive StartEvent where
  | openSession
  | declareToken
  | declareQueryable
deriving DecidableEq, Repr

/-- The startup order actually executed by main: the session is opened,
then the liveliness token is declared, then the queryable. -/
def startupSequence : List StartEvent :=
  [.openSession, .declareToken, .declareQueryable]

end Python

/-! ## src/zimage/inference_service.py — process_inference

Embedding of process_inference (lines 31-166).  The external effects
(importing and loading the diffusion pipeline, running it, saving the
image) are oracles collected in ZEnv; each either returns or raises.  The
whole body sits inside one try/except Exception that returns
"/tmp/error.png" on any caught exception.  The seed logic (lines 116-120):
a generator is created, seed 0 is replaced by the fresh random seed the
generator reports, any other value seeds the generator deterministically;
the resolved seed is then used for generation and reported (line 123). -/

namespace ZImage

/-- External effect oracles of the generation body. -/
structure ZEnv where
  loadPipeline : Except PyExc Unit
  runPipe : String → Nat → Nat → Nat → Rat → Nat → Except PyExc Nat
  saveImage : Nat → String → Except PyExc String

/-- Seed resolution (lines 116-120): 0 means use the fresh random seed
reported by generator.seed(); any other value is used as given via
generator.manual_seed. -/
def usedSeed (seed fresh : Nat) : Nat :=
  if seed = 0 then fresh else seed

/-- The try-block body (lines 33-161): load the pipeline, resolve the
seed, generate, save, and return the saved path. -/
def runGenerationBody (env : ZEnv) (fresh : Nat) (prompt : String)
    (width height seed numSteps : Nat) (guidance : Rat)
    (outputFormat : String) : Except PyExc String := do
  let _ ← env.loadPipeline
  let image ← env.runPipe prompt width height numSteps guidance (usedSeed seed fresh)
  let path ← env.saveImage image outputFormat
  pure path

/-- process_inference (lines 31-166): the body wrapped in try/except
Exception; any caught exception yields the fixed string "/tmp/error.png". -/
def process_inference (env : ZEnv) (fresh : Nat) (prompt : String)
    (width height seed numSteps : Nat) (guidance : Rat)
    (outputFormat : String) : String :=
  match runGenerationBody env fresh prompt width height seed numSteps guidance outputFormat with
  | .ok path => path
  | .error _ => "/tmp/error.png"

end ZImage

/-! ## Concrete oracles used in closed statements -/

/-- A decode oracle that always returns a fixed request. -/
def constDecode : List Nat → Except PyExc Request :=
  fun _ => Except.ok ⟨"m", "p", []⟩

/-- A backend oracle that always returns an empty result buffer. -/
def constBackend : Request → Except PyExc (List Nat) :=
  fun _ => Except.ok []

/-- A decode oracle that raises, as the generated FlatBuffers accessors do
on a malformed buffer. -/
def failingDecode : List Nat → Except PyExc Request :=
  fun _ => Except.error (PyExc.decodeFailure DecodeError.malformedBuffer)

/-- A backend oracle that raises InferenceError Timeout. -/
def timeoutBackend : Request → Except PyExc (List Nat) :=
  fun _ => Except.error (PyExc.inferenceError "Timeout")

/-- Shared round-trip lemma for the spec-modelled Response codec. -/
theorem decode_encode_response_aux (R : Response)
    (h1 : R.result_data.length < 4294967296)
    (h2 : (utf8Encode R.metadata.data).length < 4294967296) :
    decode_response (encode_response R) = .ok R := by
  obtain ⟨rd, meta⟩ := R
  obtain ⟨mchars⟩ := meta
  simp only at h1 h2
  unfold encode_response decode_response
  simp only
  rw [if_neg (by simp [le32])]
  rw [List.append_assoc (le32 rd.length) rd _]
  rw [readBlock_frame rd _ h1]
  simp only
  rw [readBlock_frame_nil _ h2]
  simp only
  rw [utf8Decode_encode]
  simp

/-! ## Claims -/

/-- C2: for every byte buffer B, including the empty buffer, truncated
buffers, and arbitrary random bytes, decoding a request from B either
returns a valid Request (non-empty model, non-empty UTF-8 prompt, optional
image_data) or a DecodeError value; as a total Lean function it cannot
raise or diverge. -/
theorem decode_request_total (buf : List Nat) :
    (∃ r, decode_request buf = .ok r ∧ r.model ≠ "" ∧ r.prompt ≠ "")
    ∨ (∃ e, decode_request buf = .error e) := by
  unfold decode_request
  repeat' split
  all_goals first
    | exact Or.inr ⟨_, rfl⟩
    | (refine Or.inl ⟨_, rfl, ?_, ?_⟩ <;> simp_all [String.ext_iff])

/-- C6: for every valid Response value R (arbitrary result_data bytes and
metadata string, with field lengths representable in the 32-bit length
prefixes), decoding the buffer produced by encoding R yields R back,
byte-for-byte and string-for-string. -/
theorem response_roundtrip (R : Response)
    (h1 : R.result_data.length < 4294967296)
    (h2 : (utf8Encode R.metadata.data).length < 4294967296) :
    decode_response (encode_response R) = .ok R :=
  decode_encode_response_aux R h1 h2

/-- C6 witness: the round-trip law evaluated at a concrete Response. -/
theorem response_roundtrip_witness :
    ([0, 255, 7] : List Nat).length < 4294967296 ∧
    (utf8Encode ("ok".data)).length < 4294967296 ∧
    decode_response (encode_response ⟨[0, 255, 7], "ok"⟩) = .ok ⟨[0, 255, 7], "ok"⟩ :=
  ⟨by decide, by decide, response_roundtrip ⟨[0, 255, 7], "ok"⟩ (by decide) (by decide)⟩

/-- C7 counterexample: the metadata string actually built by the reply path
of main (line 45) has a space after each colon, so it is not the exact
string claimed in Scenario 1. -/
theorem scenario1_metadata_counterexample :
    Python.successMetadata "qwen3vl"
      ≠ "\x7b\"model\":\"qwen3vl\",\"status\":\"success\"\x7d" := by
  decide

/-- C7 (amended): when the backend returns b"RESULT" (bytes 82 69 83 85 76
84) for a request with model "qwen3vl", the encoded reply Response decodes
back to result_data b"RESULT" and metadata equal to the exact string the
code builds, which has a space after each colon. -/
theorem scenario1_roundtrip :
    Python.successMetadata "qwen3vl"
      = "\x7b\"model\": \"qwen3vl\", \"status\": \"success\"\x7d" ∧
    decode_response (encode_response
        ⟨[82, 69, 83, 85, 76, 84], Python.successMetadata "qwen3vl"⟩)
      = .ok ⟨[82, 69, 83, 85, 76, 84], Python.successMetadata "qwen3vl"⟩ :=
  ⟨by decide,
   decode_encode_response_aux ⟨[82, 69, 83, 85, 76, 84], Python.successMetadata "qwen3vl"⟩
     (by decide) (by decide)⟩

/-- C1 counterexample: a consumed query with a non-empty payload whose
decode and backend both succeed still gets zero replies: the serialization
block crashes with NameError at line 42 (the name flatbuffers is unbound;
only FlatBuffers was imported at line 7) before query.reply is reached. -/
theorem success_path_no_reply_counterexample :
    Python.dispatchStepExact constDecode constBackend [5]
      = Python.DispatchOutcome.crashed (PyExc.nameError "flatbuffers") ∧
    Python.repliesSent (Python.dispatchStepExact constDecode constBackend [5]) = 0 := by
  exact ⟨rfl, rfl⟩

/-- C1 (amended): no consumed query is ever answered twice — in fact none
is answered at all: an empty payload is skipped by the continue at line
28, a decode or backend exception propagates out of the loop, and even
when decode and backend both succeed the serialization block raises
NameError (line 42: the name flatbuffers is unbound) before query.reply,
so every iteration ends skipped or crashed with zero replies. -/
theorem dispatch_never_replies (d : List Nat → Except PyExc Request)
    (b : Request → Except PyExc (List Nat)) (p : List Nat) :
    Python.repliesSent (Python.dispatchStepExact d b p) = 0 ∧
    (Python.dispatchStepExact d b p = .skipped ∨
      ∃ e, Python.dispatchStepExact d b p = .crashed e) := by
  unfold Python.dispatchStepExact
  split
  · exact ⟨rfl, Or.inl rfl⟩
  · split
    · exact ⟨rfl, Or.inr ⟨_, rfl⟩⟩
    · split
      · exact ⟨rfl, Or.inr ⟨_, rfl⟩⟩
      · exact ⟨rfl, Or.inr ⟨_, rfl⟩⟩

/-- C3 counterexample: on an empty request buffer the dispatch loop skips
the query via continue before any decoding, so no error Response is sent
for it. -/
theorem empty_buffer_no_reply_counterexample :
    Python.dispatchStep constDecode constBackend [] = Python.DispatchOutcome.skipped := by
  rfl

/-- C3 (amended): the spec-modelled decode_request on the empty buffer
yields DecodeError malformedBuffer, but the dispatch loop never sees it:
an empty payload is skipped without any reply. -/
theorem empty_buffer_skipped :
    decode_request [] = .error .malformedBuffer ∧
    ∀ (d : List Nat → Except PyExc Request) (b : Request → Except PyExc (List Nat)),
      Python.dispatchStep d b [] = .skipped ∧
      Python.repliesSent (Python.dispatchStep d b []) = 0 := by
  refine ⟨rfl, fun d b => ?_⟩
  simp [Python.dispatchStep, Python.repliesSent]

/-- C4 counterexample: a backend raise of InferenceError Timeout is not
caught anywhere in the dispatch loop; it propagates out as a crash and the
query gets no reply at all. -/
theorem backend_error_crash_counterexample :
    Python.dispatchStep constDecode timeoutBackend [5]
      = Python.DispatchOutcome.crashed (PyExc.inferenceError "Timeout") ∧
    Python.repliesSent (Python.dispatchStep constDecode timeoutBackend [5]) = 0 := by
  exact ⟨rfl, rfl⟩

/-- C4 (amended): for every query whose backend invocation raises, the
dispatcher has no try/except, so the exception propagates out of the
dispatch loop and the query is never answered; so a raising backend crashes
the dispatcher instead of producing an error Response. -/
theorem dispatch_backend_error_propagates (d : List Nat → Except PyExc Request)
    (b : Request → Except PyExc (List Nat)) (p : List Nat) (req : Request) (e : PyExc)
    (hp : p ≠ []) (hd : d p = .ok req) (hb : b req = .error e) :
    Python.dispatchStep d b p = .crashed e ∧
    Python.repliesSent (Python.dispatchStep d b p) = 0 := by
  simp only [Python.dispatchStep, if_neg hp, hd, hb, Python.repliesSent]
  constructor <;> first | rfl | trivial

/-- C4 witness: the amended statement evaluated at concrete oracles. -/
theorem dispatch_backend_error_propagates_witness :
    ([5] : List Nat) ≠ [] ∧
    constDecode [5] = .ok ⟨"m", "p", []⟩ ∧
    timeoutBackend ⟨"m", "p", []⟩ = .error (PyExc.inferenceError "Timeout") ∧
    Python.dispatchStep constDecode timeoutBackend [5]
      = .crashed (PyExc.inferenceError "Timeout") :=
  ⟨by simp, rfl, rfl,
    (dispatch_backend_error_propagates constDecode timeoutBackend [5] ⟨"m", "p", []⟩
      (PyExc.inferenceError "Timeout") (by simp) rfl rfl).1⟩

/-- C5 counterexample: in main the liveliness token (the advertisement) is
declared at line 17, before the queryable (the listener) at line 20, so the
listener is not registered before the advertisement is published. -/
theorem startup_order_counterexample :
    ¬ (Python.startupSequence.indexOf Python.StartEvent.declareQueryable
       < Python.startupSequence.indexOf Python.StartEvent.declareToken) := by
  decide

/-- C5 (amended): the startup order actually executed is: open the
transport connection, then publish the liveliness advertisement, and only
afterwards register the endpoint-selector listener — the advertisement is
visible before the listener exists. -/
theorem startup_order :
    Python.startupSequence.indexOf Python.StartEvent.openSession
      < Python.startupSequence.indexOf Python.StartEvent.declareToken ∧
    Python.startupSequence.indexOf Python.StartEvent.declareToken
      < Python.startupSequence.indexOf Python.StartEvent.declareQueryable := by
  decide

/-- C8: in the backend adapter call, seed 0 means the fresh random seed
reported by the generator is the one used for generation (passing 0
behaves exactly like passing that fresh seed), while any non-zero seed is
used as given, deterministically: the generation result does not depend on
the fresh random seed at all. -/
theorem seed_semantics (env : ZImage.ZEnv) (f1 f2 : Nat) (prompt : String)
    (w h steps : Nat) (g : Rat) (fmt : String) (s : Nat) :
    ZImage.usedSeed 0 f1 = f1 ∧
    (s ≠ 0 → ZImage.usedSeed s f1 = s) ∧
    ZImage.runGenerationBody env f1 prompt w h 0 steps g fmt
      = ZImage.runGenerationBody env f1 prompt w h f1 steps g fmt ∧
    (s ≠ 0 → ZImage.runGenerationBody env f1 prompt w h s steps g fmt
      = ZImage.runGenerationBody env f2 prompt w h s steps g fmt) := by
  refine ⟨rfl, fun hs => ?_, ?_, fun hs => ?_⟩
  · unfold ZImage.usedSeed
    rw [if_neg hs]
  · unfold ZImage.runGenerationBody
    have huse : ZImage.usedSeed 0 f1 = ZImage.usedSeed f1 f1 := by
      unfold ZImage.usedSeed
      simp
    rw [huse]
  · unfold ZImage.runGenerationBody
    have huse : ZImage.usedSeed s f1 = ZImage.usedSeed s f2 := by
      unfold ZImage.usedSeed
      rw [if_neg hs, if_neg hs]
    rw [huse]

/-- Concrete effect oracles for witnesses: everything succeeds. -/
def trivialZEnv : ZImage.ZEnv :=
  ⟨Except.ok (), fun _ _ _ _ _ _ => Except.ok 0, fun _ _ => Except.ok "out/img.png"⟩

/-- C8 witness: the seed semantics evaluated at concrete values. -/
theorem seed_semantics_witness :
    ZImage.usedSeed 0 7 = 7 ∧
    ZImage.usedSeed 42 7 = 42 ∧
    ZImage.runGenerationBody trivialZEnv 7 "x" 64 64 0 4 0 "png"
      = ZImage.runGenerationBody trivialZEnv 7 "x" 64 64 7 4 0 "png" ∧
    ZImage.runGenerationBody trivialZEnv 7 "x" 64 64 42 4 0 "png"
      = ZImage.runGenerationBody trivialZEnv 9 "x" 64 64 42 4 0 "png" := by
  obtain ⟨a, b, c, d⟩ := seed_semantics trivialZEnv 7 9 "x" 64 64 4 0 "png" 42
  exact ⟨a, b (by decide), c, d (by decide)⟩

/-- C9: process_inference in src/zimage is total over its error channel:
whatever the external effects do, it returns the path when the body
succeeds, and when any exception is raised during loading, generation or
saving it is caught inside the function and the fixed string
"/tmp/error.png" is returned; no exception reaches the caller. -/
theorem zimage_catch_total (env : ZImage.ZEnv) (fresh : Nat) (prompt : String)
    (w h s steps : Nat) (g : Rat) (fmt : String) :
    (∃ path, ZImage.runGenerationBody env fresh prompt w h s steps g fmt = .ok path ∧
      ZImage.process_inference env fresh prompt w h s steps g fmt = path) ∨
    (∃ e, ZImage.runGenerationBody env fresh prompt w h s steps g fmt = .error e ∧
      ZImage.process_inference env fresh prompt w h s steps g fmt = "/tmp/error.png") := by
  cases hbody : ZImage.runGenerationBody env fresh prompt w h s steps g fmt with
  | ok path =>
    refine Or.inl ⟨path, rfl, ?_⟩
    unfold ZImage.process_inference
    rw [hbody]
  | error e =>
    refine Or.inr ⟨e, rfl, ?_⟩
    unfold ZImage.process_inference
    rw [hbody]

/-- C10: every reply the dispatch loop sends carries the success metadata:
if an iteration replies at all, the request decoded to some req, the
backend returned some result res, and the Response is exactly res paired
with the success metadata string for req.model — there is no branch that
builds a failure Response. -/
theorem every_reply_success_metadata (d : List Nat → Except PyExc Request)
    (b : Request → Except PyExc (List Nat)) (p : List Nat) (resp : Response)
    (hrep : Python.dispatchStep d b p = .replied resp) :
    ∃ req res, d p = .ok req ∧ b req = .ok res ∧
      resp = ⟨res, Python.successMetadata req.model⟩ := by
  by_cases hp : p = []
  · rw [hp] at hrep
    simp [Python.dispatchStep] at hrep
  · cases hd : d p with
    | error e =>
      simp [Python.dispatchStep, if_neg hp, hd] at hrep
    | ok req =>
      cases hb : b req with
      | error e =>
        simp [Python.dispatchStep, if_neg hp, hd, hb] at hrep
      | ok res =>
        simp only [Python.dispatchStep, if_neg hp, hd, hb,
          Python.DispatchOutcome.replied.injEq] at hrep
        exact ⟨req, res, rfl, hb, hrep.symm⟩

/-- C10 witness: the reply characterization evaluated at concrete
oracles. -/
theorem every_reply_success_metadata_witness :
    Python.dispatchStep constDecode constBackend [5]
      = .replied ⟨[], Python.successMetadata "m"⟩ ∧
    ∃ req res, constDecode [5] = .ok req ∧ constBackend req = .ok res ∧
      (⟨[], Python.successMetadata "m"⟩ : Response)
        = ⟨res, Python.successMetadata req.model⟩ :=
  ⟨rfl, every_reply_success_metadata constDecode constBackend [5]
    ⟨[], Python.successMetadata "m"⟩ rfl⟩
